import Mathlib

/-!
A verification development for the day-planner repository: a shallow embedding of
the Task Store (src/tools/task_manager.py) and the Day Plan Store
(src/tools/day_planner.py), together with theorems settling the specification
claims about them.

Modelling conventions:
* Timestamps (datetime.now values) are natural numbers; each mutating operation
  receives the current clock value as an explicit `now` parameter.
* Generated UUIDs are explicit `new_id` parameters.
* Today's date (date.today().isoformat()) is an explicit `today` parameter.
* Python float quantities (estimate_hours, the completion rate) are modelled as
  exact integer / rational arithmetic.
* Each store's state holds both the in-memory collection and the contents of its
  backing file; `_save_tasks` / `_save_plans` copy the former into the latter,
  so persistence effects are visible in the model.
* Python exceptions are modelled with `Except`: an operation returns its normal
  result or an error value, paired with the (possibly mutated) final state,
  since a raised exception leaves prior in-place mutations intact.
-/

namespace DayPlannerAI

/-- Task status: Literal["pending", "in_progress", "completed"]. -/
inductive Status where
  | pending
  | in_progress
  | completed
deriving DecidableEq

/-- A task record (pydantic model `Task`).

The pydantic models are declared without validate_assignment, so
`TaskManager.update_task`'s `setattr` can store an explicitly-present `None`
into the required fields `title`, `status` and `priority` without any
validation.  Those three fields are therefore `Option`-typed here; a freshly
validated task always has them `some`. -/
structure Task where
  id : String
  title : Option String
  description : Option String
  status : Option Status
  priority : Option Int
  estimate_hours : Option Int
  due_date : Option String
  created_at : Nat
  updated_at : Nat
deriving DecidableEq

/-- Filter criteria (pydantic model `TaskFilter`); `none` = field absent. -/
structure TaskFilter where
  status : Option (List Status)
  min_priority : Option Int
  max_priority : Option Int
  has_due_date : Option Bool
deriving DecidableEq

/-- Update command (pydantic model `TaskUpdate`).  The outer `Option` records
whether the field was present on the wire (pydantic `exclude_unset`); the inner
`Option` is the transmitted value, which may be an explicit None. -/
structure TaskUpdate where
  title : Option (Option String)
  description : Option (Option String)
  status : Option (Option Status)
  priority : Option (Option Int)
  estimate_hours : Option (Option Int)
  due_date : Option (Option String)
deriving DecidableEq

/-- TaskManager state: the in-memory list `self.tasks` plus the contents of the
backing file written by `_save_tasks`. -/
structure TMState where
  tasks : List Task
  file : List Task
deriving DecidableEq

/-- Errors raised by TaskManager operations.  `validation` is pydantic's
ValidationError; `notFound` is the ValueError("Task with ID ... not found")
that the spec's taxonomy maps to NotFoundError. -/
inductive TMError where
  | validation
  | notFound
deriving DecidableEq

/-- `TaskManager.get_task_by_id`: first task whose id matches, if any. -/
def get_task_by_id (tasks : List Task) (task_id : String) : Option Task :=
  tasks.find? (fun t => decide (t.id = task_id))

/-- The pydantic field validation performed when constructing a `Task` in
`create_task`: title non-empty and at most 200 characters, description at most
1000 characters, priority between 1 and 5, estimate_hours positive. -/
def validCreate (title : String) (description : Option String) (priority : Int)
    (estimate_hours : Option Int) : Bool :=
  decide (1 ≤ title.length) && decide (title.length ≤ 200)
  && (match description with | some d => decide (d.length ≤ 1000) | none => true)
  && decide (1 ≤ priority) && decide (priority ≤ 5)
  && (match estimate_hours with | some e => decide (0 < e) | none => true)

/-- `TaskManager.create_task`: validate, construct the task with generated id
and fresh timestamps, append, persist. -/
def create_task (s : TMState) (now : Nat) (new_id : String) (title : String)
    (description : Option String) (priority : Int) (estimate_hours : Option Int)
    (due_date : Option String) : Except TMError (Task × TMState) :=
  if validCreate title description priority estimate_hours then
    let task : Task :=
      ⟨new_id, some title, description, some .pending, some priority,
        estimate_hours, due_date, now, now⟩
    let tasks2 := s.tasks ++ [task]
    .ok (task, ⟨tasks2, tasks2⟩)
  else .error .validation

/-- Sort key used by `get_tasks`: Python sorts on the tuple
`(priority, created_at)`.  A `none` priority would raise TypeError in Python;
the model totalises the comparison with `Option.getD 0`, and every ordering
theorem assumes all stored priorities are `some` (true of validated tasks). -/
def priorityKey (t : Task) : Int := t.priority.getD 0

/-- `sorted(..., key=lambda x: (x.priority, x.created_at), reverse=True)`:
`a` may precede `b` exactly when `b`'s key is lexicographically at most
`a`'s. -/
def taskSortGe (a b : Task) : Bool :=
  decide (priorityKey b < priorityKey a)
  || (decide (priorityKey a = priorityKey b) && decide (b.created_at ≤ a.created_at))

/-- `task.status in filter_criteria.status`; a `none` status is in no list. -/
def statusFilterAllows (ss : List Status) (t : Task) : Bool :=
  ss.any (fun st => decide (t.status = some st))

/-- `TaskManager.get_tasks`: apply each filter dimension in turn, then sort.
Note the Python guard `if filter_criteria.status:` is a truthiness test, so a
present-but-empty status list is skipped; the other guards test `is not None`.
Python's `sorted` with `reverse=True` is the stable sort by the relation
`taskSortGe`. -/
def get_tasks (tasks : List Task) (filter_criteria : Option TaskFilter) : List Task :=
  let filtered :=
    match filter_criteria with
    | none => tasks
    | some fc =>
      let f1 := match fc.status with
        | some ss => if ss.isEmpty then tasks else tasks.filter (statusFilterAllows ss)
        | none => tasks
      let f2 := match fc.min_priority with
        | some m => f1.filter (fun t => decide (m ≤ priorityKey t))
        | none => f1
      let f3 := match fc.max_priority with
        | some m => f2.filter (fun t => decide (priorityKey t ≤ m))
        | none => f2
      match fc.has_due_date with
        | some true => f3.filter (fun t => t.due_date.isSome)
        | some false => f3.filter (fun t => t.due_date.isNone)
        | none => f3
  filtered.mergeSort taskSortGe

/-- The `setattr` loop of `update_task`: each field present on the update
(outer `some`) is written into the task, explicit None values included. -/
def applyUpdate (t : Task) (u : TaskUpdate) : Task :=
  let t1 := match u.title with | some v => { t with title := v } | none => t
  let t2 := match u.description with | some v => { t1 with description := v } | none => t1
  let t3 := match u.status with | some v => { t2 with status := v } | none => t2
  let t4 := match u.priority with | some v => { t3 with priority := v } | none => t3
  let t5 := match u.estimate_hours with
    | some v => { t4 with estimate_hours := v } | none => t4
  match u.due_date with | some v => { t5 with due_date := v } | none => t5

/-- In-place mutation of the first list element satisfying `p` (Python's
`next(...)` returns a reference into the list, which `setattr` mutates). -/
def updateFirst (p : Task → Bool) (f : Task → Task) : List Task → List Task
  | [] => []
  | t :: ts => if p t then f t :: ts else t :: updateFirst p f ts

/-- `TaskManager.update_task`: look the task up, apply the present update
fields in place, refresh updated_at, persist, return the mutated task. -/
def update_task (s : TMState) (now : Nat) (task_id : String) (u : TaskUpdate) :
    Except TMError Task × TMState :=
  match get_task_by_id s.tasks task_id with
  | none => (.error .notFound, s)
  | some t =>
    let t2 := { applyUpdate t u with updated_at := now }
    let tasks2 := updateFirst (fun x => decide (x.id = task_id))
      (fun x => { applyUpdate x u with updated_at := now }) s.tasks
    (.ok t2, ⟨tasks2, tasks2⟩)

/-- `TaskManager.delete_task`: rebuild the list without the matching id;
persist and return true only when the length shrank. -/
def delete_task (s : TMState) (task_id : String) : Bool × TMState :=
  let tasks2 := s.tasks.filter (fun t => decide (t.id ≠ task_id))
  if tasks2.length < s.tasks.length then (true, ⟨tasks2, tasks2⟩)
  else (false, s)

/-- Result record of `get_task_summary`. -/
structure TaskSummary where
  total : Nat
  pending : Nat
  in_progress : Nat
  completed : Nat
  completion_rate : ℚ
deriving DecidableEq

/-- Round a rational to the nearest integer, ties to even: the behaviour of
Python's builtin `round` (floats modelled as exact rationals). -/
def roundHalfEven (q : ℚ) : ℤ :=
  let f := ⌊q⌋
  let r := q - f
  if r < 1/2 then f
  else if (1 : ℚ)/2 < r then f + 1
  else if f % 2 = 0 then f else f + 1

/-- Python `round(q, 1)`. -/
def pyRound1 (q : ℚ) : ℚ := (roundHalfEven (q * 10) : ℚ) / 10

/-- `TaskManager.get_task_summary` (read-only: takes no state and returns no
state, mirroring the absence of any mutation or save in the source). -/
def get_task_summary (tasks : List Task) : TaskSummary :=
  let total := tasks.length
  let pending := (tasks.filter (fun t => decide (t.status = some .pending))).length
  let in_progress := (tasks.filter (fun t => decide (t.status = some .in_progress))).length
  let completed := (tasks.filter (fun t => decide (t.status = some .completed))).length
  { total := total, pending := pending, in_progress := in_progress,
    completed := completed,
    completion_rate :=
      pyRound1 (if 0 < total then (completed : ℚ) / (total : ℚ) * 100 else 0) }

/-- A time slot (pydantic model `TimeSlot`). -/
structure TimeSlot where
  start_time : String
  end_time : String
  task_id : Option String
  notes : Option String
deriving DecidableEq

/-- A day plan (pydantic model `DayPlan`). -/
structure DayPlan where
  date : String
  time_slots : List TimeSlot
  notes : Option String
  created_at : Nat
  updated_at : Nat
deriving DecidableEq

/-- DayPlanner state: the dict `self.plans` (an insertion-ordered association
list keyed by date string) plus the contents of the backing file. -/
structure DPState where
  plans : List (String × DayPlan)
  file : List (String × DayPlan)
deriving DecidableEq

/-- Errors raised by DayPlanner operations.  The first three are the
ValueErrors that the spec's taxonomy maps to NotFoundError; `indexErr` is an
uncaught IndexError from Python list subscription. -/
inductive DPError where
  | noPlanForToday
  | slotIndexOutOfRange
  | taskNotFound
  | indexErr
deriving DecidableEq

/-- `self.plans.get(d)`: dict lookup. -/
def lookupPlan (plans : List (String × DayPlan)) (d : String) : Option DayPlan :=
  (plans.find? (fun p => decide (p.1 = d))).map Prod.snd

/-- `self.plans[d] = plan`: dict assignment replaces the value in place when
the key exists (keeping its position) and appends otherwise. -/
def insertPlan : List (String × DayPlan) → String → DayPlan → List (String × DayPlan)
  | [], d, plan => [(d, plan)]
  | p :: ps, d, plan => if p.1 = d then (d, plan) :: ps else p :: insertPlan ps d plan

/-- `DayPlanner.get_today_plan`. -/
def get_today_plan (s : DPState) (today : String) : Option DayPlan :=
  lookupPlan s.plans today

/-- `DayPlanner.create_today_plan`: build an empty plan for today, store it
under today's key (overwriting any existing entry), persist, return it. -/
def create_today_plan (s : DPState) (today : String) (now : Nat)
    (notes : Option String) : DayPlan × DPState :=
  let plan : DayPlan := ⟨today, [], notes, now, now⟩
  let plans2 := insertPlan s.plans today plan
  (plan, ⟨plans2, plans2⟩)

/-- `DayPlanner.get_or_create_today_plan`. -/
def get_or_create_today_plan (s : DPState) (today : String) (now : Nat) :
    DayPlan × DPState :=
  match get_today_plan s today with
  | some plan => (plan, s)
  | none => create_today_plan s today now none

/-- Python truthiness of `task_id`: false for None and for the empty string. -/
def optStrTruthy : Option String → Bool
  | none => false
  | some s => !s.isEmpty

/-- `DayPlanner.add_time_slot`: get or create today's plan (a mutation that
happens before any validation), then validate a truthy task_id, then append
the new slot, refresh updated_at and persist. -/
def add_time_slot (tasks : List Task) (s : DPState) (today : String) (now : Nat)
    (start_time end_time : String) (task_id : Option String)
    (notes : Option String) : Except DPError TimeSlot × DPState :=
  let pr := get_or_create_today_plan s today now
  if optStrTruthy task_id && (get_task_by_id tasks (task_id.getD "")).isNone then
    (.error .taskNotFound, pr.2)
  else
    let slot : TimeSlot := ⟨start_time, end_time, task_id, notes⟩
    let plan2 := { pr.1 with time_slots := pr.1.time_slots ++ [slot], updated_at := now }
    let plans2 := insertPlan pr.2.plans today plan2
    (.ok slot, ⟨plans2, plans2⟩)

/-- Python list subscription index: valid when `-len ≤ i < len`, with negative
values counting from the end; `none` means IndexError. -/
def pyIndex (len : Nat) (i : Int) : Option Nat :=
  if 0 ≤ i then (if i < (len : Int) then some i.toNat else none)
  else (if -(len : Int) ≤ i then some (i + (len : Int)).toNat else none)

/-- `DayPlanner.assign_task_to_slot`: require today's plan, reject
`slot_index >= len` (the only bounds guard in the source), require the task to
resolve, then subscript the slot list — so an in-range negative index mutates
a slot counted from the end, and an index below `-len` raises IndexError. -/
def assign_task_to_slot (tasks : List Task) (s : DPState) (today : String)
    (now : Nat) (slot_index : Int) (task_id : String) :
    Except DPError TimeSlot × DPState :=
  match get_today_plan s today with
  | none => (.error .noPlanForToday, s)
  | some plan =>
    if (plan.time_slots.length : Int) ≤ slot_index then
      (.error .slotIndexOutOfRange, s)
    else if (get_task_by_id tasks task_id).isNone then
      (.error .taskNotFound, s)
    else
      match pyIndex plan.time_slots.length slot_index with
      | none => (.error .indexErr, s)
      | some i =>
        match plan.time_slots.get? i with
        | none => (.error .indexErr, s)
        | some slot =>
          let slot2 := { slot with task_id := some task_id }
          let plan2 :=
            { plan with time_slots := plan.time_slots.set i slot2, updated_at := now }
          let plans2 := insertPlan s.plans today plan2
          (.ok slot2, ⟨plans2, plans2⟩)

/-- `DayPlanner.get_unscheduled_tasks`: all tasks (unfiltered `get_tasks`
call) whose id is not among the truthy task_ids of today's slots (an absent
plan contributes an empty slot list via a fresh default `DayPlan`). -/
def get_unscheduled_tasks (tasks : List Task) (s : DPState) (today : String) :
    List Task :=
  let all_tasks := get_tasks tasks none
  let slots := (match get_today_plan s today with
    | some plan => plan
    | none => (⟨today, [], none, 0, 0⟩ : DayPlan)).time_slots
  let scheduled_task_ids := slots.filterMap (fun sl =>
    if optStrTruthy sl.task_id then sl.task_id else none)
  all_tasks.filter (fun t => !scheduled_task_ids.any (fun i => decide (i = t.id)))

/-- The declared Task field constraints from the data model: non-empty title
of at most 200 characters, priority between 1 and 5, positive estimate_hours
when present. -/
def taskInvariant (t : Task) : Bool :=
  (match t.title with | some s => !s.isEmpty && decide (s.length ≤ 200) | none => false)
  && (match t.priority with
      | some p => decide (1 ≤ p) && decide (p ≤ 5) | none => false)
  && (match t.estimate_hours with | some e => decide (0 < e) | none => true)

/-- The pydantic validation of a `TaskUpdate` on the wire: constraints apply
to non-None values, while explicit None passes every field's validation. -/
def validUpdate (u : TaskUpdate) : Bool :=
  (match u.title with
   | some (some s) => !s.isEmpty && decide (s.length ≤ 200) | _ => true)
  && (match u.description with
      | some (some d) => decide (d.length ≤ 1000) | _ => true)
  && (match u.priority with
      | some (some p) => decide (1 ≤ p) && decide (p ≤ 5) | _ => true)
  && (match u.estimate_hours with
      | some (some e) => decide (0 < e) | _ => true)

/-- The specification's conjunctive filter predicate, written from the spec's
words with the one amendment the code forces: a present-but-empty status list
imposes no constraint (Python truthiness skips it), while every other present
dimension is applied as a conjunct. -/
def passesFilter (fc : TaskFilter) (t : Task) : Bool :=
  (match fc.status with
   | some (st :: ss) => statusFilterAllows (st :: ss) t
   | _ => true)
  && (match fc.min_priority with
      | some m => decide (m ≤ priorityKey t) | none => true)
  && (match fc.max_priority with
      | some m => decide (priorityKey t ≤ m) | none => true)
  && (match fc.has_due_date with
      | some true => t.due_date.isSome
      | some false => t.due_date.isNone
      | none => true)

/-- `passesFilter` lifted to an optional filter: no filter, no constraint. -/
def passesOptFilter (fc? : Option TaskFilter) (t : Task) : Bool :=
  match fc? with
  | none => true
  | some fc => passesFilter fc t

/-- The spec's result order between a task and any later task in the returned
sequence: strictly higher priority first, and among equal priorities the more
recently created task first. -/
def specSortedRel (a b : Task) : Prop :=
  priorityKey b < priorityKey a
  ∨ (priorityKey a = priorityKey b ∧ b.created_at ≤ a.created_at)

/-- A concrete valid task used by witnesses and counterexamples. -/
def sampleTask : Task :=
  ⟨"a", some "T", none, some .pending, some 3, none, none, 0, 0⟩

theorem lookupPlan_eq_none_iff (plans : List (String × DayPlan)) (d : String) :
    lookupPlan plans d = none ↔ ∀ q ∈ plans, q.1 ≠ d := by
  simp [lookupPlan, List.find?_eq_none]

theorem lookupPlan_insertPlan_self (plans : List (String × DayPlan)) (d : String)
    (plan : DayPlan) : lookupPlan (insertPlan plans d plan) d = some plan := by
  induction plans with
  | nil => simp [insertPlan, lookupPlan]
  | cons p ps ih =>
    by_cases h : p.1 = d
    · simp [insertPlan, h, lookupPlan]
    · simpa [insertPlan, h, lookupPlan] using ih

theorem lookupPlan_insertPlan_ne (plans : List (String × DayPlan)) (d d' : String)
    (plan : DayPlan) (h : d' ≠ d) :
    lookupPlan (insertPlan plans d plan) d' = lookupPlan plans d' := by
  have hd : ¬ (d = d') := fun h' => h h'.symm
  induction plans with
  | nil => simp [insertPlan, lookupPlan, hd]
  | cons p ps ih =>
    by_cases hp : p.1 = d
    · have hp' : ¬ (p.1 = d') := by rw [hp]; exact hd
      simp [insertPlan, hp, lookupPlan, List.find?, hd, hp']
    · have h1 : insertPlan (p :: ps) d plan = p :: insertPlan ps d plan := by
        simp [insertPlan, hp]
      by_cases hq : p.1 = d'
      · rw [h1]; simp [lookupPlan, List.find?, hq]
      · rw [h1]; simpa [lookupPlan, List.find?, hq] using ih

theorem insertPlan_append_of_absent (plans : List (String × DayPlan)) (d : String)
    (plan : DayPlan) (h : ∀ q ∈ plans, q.1 ≠ d) :
    insertPlan plans d plan = plans ++ [(d, plan)] := by
  induction plans with
  | nil => rfl
  | cons p ps ih =>
    have hp : p.1 ≠ d := h p (List.mem_cons_self p ps)
    have ih' := ih (fun q hq => h q (List.mem_cons_of_mem p hq))
    simp [insertPlan, hp, ih']

/-- C4: `create_today_plan` always succeeds; it stores a fresh empty plan
under today's key, overwriting any existing plan for that date without any
error, leaves every other date's plan unchanged, persists the new mapping,
and returns the created plan with an empty slot sequence and the given
notes. -/
theorem C4_create_today_plan (s : DPState) (today : String) (now : Nat)
    (notes : Option String) :
    (create_today_plan s today now notes).1 = ⟨today, [], notes, now, now⟩
    ∧ lookupPlan (create_today_plan s today now notes).2.plans today
        = some (⟨today, [], notes, now, now⟩ : DayPlan)
    ∧ (∀ d, d ≠ today →
        lookupPlan (create_today_plan s today now notes).2.plans d
          = lookupPlan s.plans d)
    ∧ (create_today_plan s today now notes).2.file
        = (create_today_plan s today now notes).2.plans :=
  ⟨rfl, lookupPlan_insertPlan_self s.plans today _,
    fun d hd => lookupPlan_insertPlan_ne s.plans today d _ hd, rfl⟩

/-- C4 witness: creating a plan for 2026-10-12 in the empty store leaves the
(unrelated) date 2026-10-11 unmapped. -/
theorem C4_create_today_plan_witness :
    lookupPlan (create_today_plan ⟨[], []⟩ "2026-10-12" 3 (some "n")).2.plans
        "2026-10-11" = none := by
  have h := C4_create_today_plan ⟨[], []⟩ "2026-10-12" 3 (some "n")
  exact (h.2.2.1 "2026-10-11" (by decide)).trans rfl

/-- C1 counterexample: with no plan for today and a non-empty task_id that
resolves to no task, `add_time_slot` does fail with the NotFound-mapped
ValueError, but it has already created and persisted an empty plan for today,
so the day-plan state is mutated — refuting "neither mutates nor persists". -/
theorem C1_counterexample :
    (add_time_slot [] ⟨[], []⟩ "2026-10-12" 5 "09:00" "10:00" (some "x") none).1
        = .error .taskNotFound
    ∧ (add_time_slot [] ⟨[], []⟩ "2026-10-12" 5 "09:00" "10:00" (some "x") none).2
        ≠ (⟨[], []⟩ : DPState) :=
  ⟨rfl, by decide⟩

/-- C1 amended: when the given task_id is a non-empty string that does not
resolve in the Task Store, `add_time_slot` fails with the NotFound-mapped
ValueError and appends no slot; if a plan already exists for today the state
(memory and file) is untouched, but if none exists, an empty plan for today
has already been created and persisted before the failure. -/
theorem C1_add_time_slot_dangling (tasks : List Task) (s : DPState) (today : String)
    (now : Nat) (st et : String) (tid : String) (notes : Option String)
    (htid : tid ≠ "") (hmiss : get_task_by_id tasks tid = none) :
    (add_time_slot tasks s today now st et (some tid) notes).1 = .error .taskNotFound
    ∧ (get_today_plan s today ≠ none →
        (add_time_slot tasks s today now st et (some tid) notes).2 = s)
    ∧ (get_today_plan s today = none →
        (add_time_slot tasks s today now st et (some tid) notes).2
          = ⟨s.plans ++ [(today, ⟨today, [], none, now, now⟩)],
             s.plans ++ [(today, ⟨today, [], none, now, now⟩)]⟩) := by
  have hempty : tid.isEmpty = false := by
    cases h : tid.isEmpty
    · rfl
    · exact absurd ((String.isEmpty_iff tid).mp h) htid
  cases hc : get_today_plan s today with
  | some plan =>
    refine ⟨?_, fun _ => ?_, fun h => absurd h (by simp [hc])⟩
    · simp [add_time_slot, get_or_create_today_plan, hc, optStrTruthy, hempty, hmiss]
    · simp [add_time_slot, get_or_create_today_plan, hc, optStrTruthy, hempty, hmiss]
  | none =>
    have habs : ∀ q ∈ s.plans, q.1 ≠ today :=
      (lookupPlan_eq_none_iff s.plans today).mp hc
    have hins := insertPlan_append_of_absent s.plans today
      (⟨today, [], none, now, now⟩ : DayPlan) habs
    refine ⟨?_, fun h => absurd rfl h, fun _ => ?_⟩
    · simp [add_time_slot, get_or_create_today_plan, hc, optStrTruthy, hempty, hmiss,
        create_today_plan]
    · simp [add_time_slot, get_or_create_today_plan, hc, optStrTruthy, hempty, hmiss,
        create_today_plan, hins]

/-- C1 witness: the amended behaviour at a concrete input — the failing call
on the empty store leaves behind exactly the persisted empty plan for
today. -/
theorem C1_add_time_slot_dangling_witness :
    (add_time_slot [] ⟨[], []⟩ "2026-10-12" 5 "09:00" "10:00" (some "x") none).1
        = .error .taskNotFound
    ∧ (add_time_slot [] ⟨[], []⟩ "2026-10-12" 5 "09:00" "10:00" (some "x") none).2
        = ⟨[("2026-10-12", ⟨"2026-10-12", [], none, 5, 5⟩)],
           [("2026-10-12", ⟨"2026-10-12", [], none, 5, 5⟩)]⟩ := by
  have h := C1_add_time_slot_dangling [] ⟨[], []⟩ "2026-10-12" 5 "09:00" "10:00"
    "x" none (by decide) rfl
  exact ⟨h.1, by simpa using h.2.2 rfl⟩

/-- C9: `add_time_slot` with task_id equal to the empty string never raises —
the truthiness guard skips the existence check even though no task has id "" —
and a slot whose task_id is "" is appended to today's plan and persisted. -/
theorem C9_empty_string_task_id (tasks : List Task) (s : DPState) (today : String)
    (now : Nat) (st et : String) (notes : Option String)
    (hno : ∀ t ∈ tasks, t.id ≠ "") :
    (add_time_slot tasks s today now st et (some "") notes).1
        = .ok ⟨st, et, some "", notes⟩
    ∧ (∃ plan2,
        get_today_plan (add_time_slot tasks s today now st et (some "") notes).2 today
          = some plan2
        ∧ plan2.time_slots
            = (match get_today_plan s today with
               | some plan => plan.time_slots
               | none => []) ++ [⟨st, et, some "", notes⟩])
    ∧ (add_time_slot tasks s today now st et (some "") notes).2.file
        = (add_time_slot tasks s today now st et (some "") notes).2.plans := by
  have hfalse : optStrTruthy (some "") = false := rfl
  cases hc : get_today_plan s today with
  | some plan =>
    have hc' : lookupPlan s.plans today = some plan := hc
    refine ⟨by simp [add_time_slot, get_or_create_today_plan, get_today_plan, hc',
      hfalse], ?_, ?_⟩
    · refine ⟨{ plan with
          time_slots := plan.time_slots ++ [⟨st, et, some "", notes⟩]
          updated_at := now }, ?_, by simp [hc]⟩
      simp [add_time_slot, get_or_create_today_plan, hc', hfalse, get_today_plan]
      exact lookupPlan_insertPlan_self s.plans today _
    · simp [add_time_slot, get_or_create_today_plan, hc', hfalse, get_today_plan]
  | none =>
    have hc' : lookupPlan s.plans today = none := hc
    refine ⟨by simp [add_time_slot, get_or_create_today_plan, get_today_plan, hc',
        hfalse, create_today_plan], ?_, ?_⟩
    · refine ⟨⟨today, [⟨st, et, some "", notes⟩], none, now, now⟩, ?_, by simp [hc]⟩
      simp [add_time_slot, get_or_create_today_plan, hc', hfalse, create_today_plan,
        get_today_plan]
      exact lookupPlan_insertPlan_self _ today _
    · simp [add_time_slot, get_or_create_today_plan, hc', hfalse, create_today_plan,
        get_today_plan]

/-- C9 witness: on the empty stores the call returns the slot bound to "". -/
theorem C9_empty_string_task_id_witness :
    (add_time_slot [] ⟨[], []⟩ "2026-10-12" 7 "09:00" "10:00" (some "") none).1
        = .ok ⟨"09:00", "10:00", some "", none⟩ :=
  (C9_empty_string_task_id [] ⟨[], []⟩ "2026-10-12" 7 "09:00" "10:00" none
    (by intro t ht; cases ht)).1

/-- C2 counterexample: the claim demands NotFoundError for every negative
slot_index, but with one slot, an existing task and slot_index = -1 the call
succeeds — Python's bounds guard only rejects `slot_index >= len`, and list
subscription resolves -1 to the last slot, which gets mutated and persisted. -/
theorem C2_counterexample :
    (assign_task_to_slot [⟨"t1", some "T", none, some .pending, some 3, none, none, 0, 0⟩]
        ⟨[("2026-10-12", ⟨"2026-10-12", [⟨"09:00", "10:00", none, none⟩], none, 0, 0⟩)],
         [("2026-10-12", ⟨"2026-10-12", [⟨"09:00", "10:00", none, none⟩], none, 0, 0⟩)]⟩
        "2026-10-12" 9 (-1) "t1").1
      = .ok ⟨"09:00", "10:00", some "t1", none⟩
    ∧ (assign_task_to_slot [⟨"t1", some "T", none, some .pending, some 3, none, none, 0, 0⟩]
        ⟨[("2026-10-12", ⟨"2026-10-12", [⟨"09:00", "10:00", none, none⟩], none, 0, 0⟩)],
         [("2026-10-12", ⟨"2026-10-12", [⟨"09:00", "10:00", none, none⟩], none, 0, 0⟩)]⟩
        "2026-10-12" 9 (-1) "t1").2.plans
      = [("2026-10-12",
          ⟨"2026-10-12", [⟨"09:00", "10:00", some "t1", none⟩], none, 0, 9⟩)] :=
  ⟨rfl, by decide⟩

/-- C2 amended: `assign_task_to_slot` fails with the NotFound-mapped
ValueError exactly when no plan exists for today, or `slot_index ≥` the number
of slots, or the task does not resolve; each failure leaves the state
untouched.  A negative `slot_index` within `[-len, -1]` does NOT fail: it
mutates the slot counted from the end (position `len + slot_index`), refreshes
`updated_at`, persists, and returns the mutated slot, exactly as a
non-negative in-bounds index does; a negative index below `-len` fails with an
IndexError, which is not a NotFoundError. -/
theorem C2_assign_task_to_slot_cases (tasks : List Task) (s : DPState)
    (today : String) (now : Nat) (slot_index : Int) (task_id : String) :
    (get_today_plan s today = none →
      assign_task_to_slot tasks s today now slot_index task_id
        = (.error .noPlanForToday, s))
    ∧ (∀ plan, get_today_plan s today = some plan →
        (((plan.time_slots.length : Int) ≤ slot_index →
          assign_task_to_slot tasks s today now slot_index task_id
            = (.error .slotIndexOutOfRange, s))
        ∧ (slot_index < (plan.time_slots.length : Int) →
            get_task_by_id tasks task_id = none →
            assign_task_to_slot tasks s today now slot_index task_id
              = (.error .taskNotFound, s))
        ∧ (slot_index < -(plan.time_slots.length : Int) →
            (get_task_by_id tasks task_id).isSome →
            assign_task_to_slot tasks s today now slot_index task_id
              = (.error .indexErr, s))
        ∧ (-(plan.time_slots.length : Int) ≤ slot_index →
            slot_index < (plan.time_slots.length : Int) →
            (get_task_by_id tasks task_id).isSome →
            ∃ i : Nat, pyIndex plan.time_slots.length slot_index = some i
              ∧ ∃ slot, plan.time_slots[i]? = some slot
              ∧ (assign_task_to_slot tasks s today now slot_index task_id).1
                  = .ok { slot with task_id := some task_id }
              ∧ get_today_plan
                  (assign_task_to_slot tasks s today now slot_index task_id).2 today
                  = some { plan with
                      time_slots :=
                        plan.time_slots.set i { slot with task_id := some task_id }
                      updated_at := now }
              ∧ (∀ d, d ≠ today →
                  lookupPlan
                      (assign_task_to_slot tasks s today now slot_index task_id).2.plans
                      d
                    = lookupPlan s.plans d)
              ∧ (assign_task_to_slot tasks s today now slot_index task_id).2.file
                  = (assign_task_to_slot tasks s today now slot_index task_id).2.plans))) := by
  cases hc : get_today_plan s today with
  | none =>
    refine ⟨fun _ => by simp [assign_task_to_slot, hc], fun plan hplan => ?_⟩
    simp at hplan
  | some plan0 =>
    refine ⟨fun h => by simp at h, fun plan hplan => ?_⟩
    have hpl : plan0 = plan := by injection hplan
    subst hpl
    refine ⟨fun hge => by simp [assign_task_to_slot, hc, hge], ?_, ?_, ?_⟩
    · intro hlt hmiss
      simp [assign_task_to_slot, hc, not_le.mpr hlt, hmiss]
    · intro hneg hsome
      obtain ⟨tk, htk⟩ := Option.isSome_iff_exists.mp hsome
      have hnotle : ¬ ((plan0.time_slots.length : Int) ≤ slot_index) := by omega
      have hsign : ¬ (0 ≤ slot_index) := by omega
      have hout : ¬ (-(plan0.time_slots.length : Int) ≤ slot_index) := by omega
      simp [assign_task_to_slot, hc, hnotle, htk, pyIndex, hsign, hout]
    · intro hneg hlt hsome
      obtain ⟨tk, htk⟩ := Option.isSome_iff_exists.mp hsome
      have hnotle : ¬ ((plan0.time_slots.length : Int) ≤ slot_index) := not_le.mpr hlt
      by_cases hsign : 0 ≤ slot_index
      · have hb : slot_index.toNat < plan0.time_slots.length := by omega
        have hpy : pyIndex plan0.time_slots.length slot_index = some slot_index.toNat := by
          simp [pyIndex, hsign, hlt]
        have hget : plan0.time_slots[slot_index.toNat]?
            = some plan0.time_slots[slot_index.toNat] :=
          List.getElem?_eq_getElem hb
        have hc' : lookupPlan s.plans today = some plan0 := hc
        refine ⟨slot_index.toNat, hpy, plan0.time_slots[slot_index.toNat],
          hget, ?_, ?_, ?_, ?_⟩
        · simp [assign_task_to_slot, hc, hnotle, htk, hpy, hget]
        · simp [assign_task_to_slot, hc, hc', hnotle, htk, hpy, hget, get_today_plan]
          exact lookupPlan_insertPlan_self s.plans today _
        · intro d hd
          simp [assign_task_to_slot, hc, hnotle, htk, hpy, hget]
          exact lookupPlan_insertPlan_ne s.plans today d _ hd
        · simp [assign_task_to_slot, hc, hnotle, htk, hpy, hget]
      · have hb : (slot_index + (plan0.time_slots.length : Int)).toNat
            < plan0.time_slots.length := by omega
        have hpy : pyIndex plan0.time_slots.length slot_index
            = some (slot_index + (plan0.time_slots.length : Int)).toNat := by
          simp [pyIndex, hsign, hneg]
        have hget : plan0.time_slots[(slot_index + (plan0.time_slots.length : Int)).toNat]?
            = some plan0.time_slots[(slot_index + (plan0.time_slots.length : Int)).toNat] :=
          List.getElem?_eq_getElem hb
        have hc' : lookupPlan s.plans today = some plan0 := hc
        refine ⟨(slot_index + (plan0.time_slots.length : Int)).toNat, hpy,
          plan0.time_slots[(slot_index + (plan0.time_slots.length : Int)).toNat],
          hget, ?_, ?_, ?_, ?_⟩
        · simp [assign_task_to_slot, hc, hnotle, htk, hpy, hget]
        · simp [assign_task_to_slot, hc, hc', hnotle, htk, hpy, hget, get_today_plan]
          exact lookupPlan_insertPlan_self s.plans today _
        · intro d hd
          simp [assign_task_to_slot, hc, hnotle, htk, hpy, hget]
          exact lookupPlan_insertPlan_ne s.plans today d _ hd
        · simp [assign_task_to_slot, hc, hnotle, htk, hpy, hget]

/-- C2 witness: the no-plan failure branch of the amended theorem at a
concrete input. -/
theorem C2_assign_task_to_slot_cases_witness :
    assign_task_to_slot [] ⟨[], []⟩ "2026-10-12" 0 0 "t1"
      = (.error .noPlanForToday, ⟨[], []⟩) :=
  (C2_assign_task_to_slot_cases [] ⟨[], []⟩ "2026-10-12" 0 0 "t1").1 rfl

theorem mergeSort_nil_eq (le : Task → Task → Bool) : List.mergeSort [] le = [] :=
  List.perm_nil.mp (List.mergeSort_perm [] le)

theorem mergeSort_singleton_eq (a : Task) (le : Task → Task → Bool) :
    List.mergeSort [a] le = [a] :=
  List.perm_singleton.mp (List.mergeSort_perm [a] le)

theorem taskSortGe_trans (a b c : Task) (hab : taskSortGe a b = true)
    (hbc : taskSortGe b c = true) : taskSortGe a c = true := by
  simp [taskSortGe] at hab hbc ⊢
  omega

theorem taskSortGe_total (a b : Task) : (taskSortGe a b || taskSortGe b a) = true := by
  simp [taskSortGe]
  omega

theorem taskSortGe_eq_true_iff (a b : Task) :
    taskSortGe a b = true ↔ specSortedRel a b := by
  simp [taskSortGe, specSortedRel]

/-- A string different from "" has isEmpty false. -/
theorem isEmpty_false_of_ne {s : String} (h : s ≠ "") : s.isEmpty = false := by
  cases he : s.isEmpty
  · rfl
  · exact absurd ((String.isEmpty_iff s).mp he) h

/-- The staged filtering inside `get_tasks` coincides with one pass of the
conjunctive predicate `passesFilter`. -/
theorem get_tasks_eq_filter_mergeSort (tasks : List Task) (fc : TaskFilter) :
    get_tasks tasks (some fc)
      = (tasks.filter (fun t => passesFilter fc t)).mergeSort taskSortGe := by
  rcases fc with ⟨st, mn, mx, dd⟩
  have hstages :
      (let f1 := match st with
        | some ss => if ss.isEmpty then tasks else tasks.filter (statusFilterAllows ss)
        | none => tasks
      let f2 := match mn with
        | some m => f1.filter (fun t => decide (m ≤ priorityKey t))
        | none => f1
      let f3 := match mx with
        | some m => f2.filter (fun t => decide (priorityKey t ≤ m))
        | none => f2
      match dd with
        | some true => f3.filter (fun t => t.due_date.isSome)
        | some false => f3.filter (fun t => t.due_date.isNone)
        | none => f3)
      = tasks.filter (fun t => passesFilter ⟨st, mn, mx, dd⟩ t) := by
    rcases st with _ | ⟨_ | ⟨s1, ss⟩⟩ <;> rcases mn with _ | m1 <;>
      rcases mx with _ | m2 <;> rcases dd with _ | ⟨_ | _⟩ <;>
      simp [passesFilter, List.filter_filter, Bool.and_comm, Bool.and_assoc,
        Bool.and_left_comm]
  simpa [get_tasks] using congrArg (fun l => l.mergeSort taskSortGe) hstages

/-- The returned order of `get_tasks`: priority descending, created_at
descending on priority ties. -/
theorem get_tasks_pairwise (tasks : List Task) (fc? : Option TaskFilter) :
    (get_tasks tasks fc?).Pairwise specSortedRel := by
  have hpw : (get_tasks tasks fc?).Pairwise (fun a b => taskSortGe a b = true) := by
    cases fc? with
    | none =>
      simpa [get_tasks] using
        List.sorted_mergeSort taskSortGe_trans taskSortGe_total tasks
    | some fc =>
      rw [get_tasks_eq_filter_mergeSort]
      exact List.sorted_mergeSort taskSortGe_trans taskSortGe_total _
  exact hpw.imp (fun h => (taskSortGe_eq_true_iff _ _).mp h)

/-- Every task returned by `get_tasks` is a member of the store's list. -/
theorem mem_get_tasks (t : Task) (tasks : List Task) (fc? : Option TaskFilter)
    (h : t ∈ get_tasks tasks fc?) : t ∈ tasks := by
  cases fc? with
  | none =>
    simp only [get_tasks] at h
    exact (List.mergeSort_perm tasks taskSortGe).subset h
  | some fc =>
    rw [get_tasks_eq_filter_mergeSort] at h
    exact List.mem_of_mem_filter ((List.mergeSort_perm _ taskSortGe).subset h)

/-- C3 counterexample: a filter whose status dimension is present but empty is
skipped by the Python truthiness guard, so the returned task violates the
claimed conjunctive status-membership predicate (membership in the empty
set). -/
theorem C3_counterexample :
    get_tasks [⟨"a", some "T", none, some .pending, some 3, none, none, 0, 0⟩]
        (some ⟨some [], none, none, none⟩)
      = [⟨"a", some "T", none, some .pending, some 3, none, none, 0, 0⟩]
    ∧ statusFilterAllows []
        ⟨"a", some "T", none, some .pending, some 3, none, none, 0, 0⟩ = false := by
  refine ⟨?_, rfl⟩
  simpa [get_tasks] using
    mergeSort_singleton_eq ⟨"a", some "T", none, some .pending, some 3, none, none, 0, 0⟩
      taskSortGe

/-- C3 amended: `get_tasks` returns a permutation of the tasks passing every
present filter dimension conjunctively — except that a present-but-empty
status list is ignored — in an order where each task has strictly higher
priority than any later one, or equal priority and a later-or-equal
created_at; with no filter every task survives.  In particular a present
`min_priority = m` bounds every returned task's priority below by `m`.
The priority-validity hypothesis records that Python's comparisons are only
defined when every stored priority is an int. -/
theorem C3_get_tasks_filter_sort (tasks : List Task) (fc? : Option TaskFilter)
    (hp : ∀ t ∈ tasks, t.priority.isSome) :
    (get_tasks tasks fc?).Perm (tasks.filter (fun t => passesOptFilter fc? t))
    ∧ (get_tasks tasks fc?).Pairwise specSortedRel
    ∧ (∀ fc m t, fc? = some fc → fc.min_priority = some m →
        t ∈ get_tasks tasks fc? → m ≤ priorityKey t) := by
  have hperm : (get_tasks tasks fc?).Perm
      (tasks.filter (fun t => passesOptFilter fc? t)) := by
    cases fc? with
    | none =>
      simpa [get_tasks, passesOptFilter] using List.mergeSort_perm tasks taskSortGe
    | some fc =>
      rw [get_tasks_eq_filter_mergeSort]
      simpa [passesOptFilter] using
        List.mergeSort_perm (tasks.filter (fun t => passesFilter fc t)) taskSortGe
  refine ⟨hperm, get_tasks_pairwise tasks fc?, ?_⟩
  · intro fc m t hfc hm ht
    subst hfc
    have hmem := hperm.subset ht
    have := List.of_mem_filter hmem
    rcases fc with ⟨st, mn, mx, dd⟩
    cases hm
    simp [passesOptFilter, passesFilter] at this
    tauto

/-- C3 witness: the amended theorem applied to a one-task store with the
min-priority-4 filter from the claim's example; the task has priority 3 and
is filtered out. -/
theorem C3_get_tasks_filter_sort_witness :
    (get_tasks [⟨"a", some "T", none, some .pending, some 3, none, none, 0, 0⟩]
        (some ⟨none, some 4, none, none⟩)).Perm
      ([⟨"a", some "T", none, some .pending, some 3, none, none, 0, 0⟩].filter
        (fun t => passesOptFilter (some ⟨none, some 4, none, none⟩) t)) :=
  (C3_get_tasks_filter_sort
    [⟨"a", some "T", none, some .pending, some 3, none, none, 0, 0⟩]
    (some ⟨none, some 4, none, none⟩) (by decide)).1

theorem updateFirst_append (l1 : List Task) (t : Task) (l2 : List Task)
    (p : Task → Bool) (f : Task → Task) (h : ∀ x ∈ l1, p x = false)
    (hpt : p t = true) :
    updateFirst p f (l1 ++ t :: l2) = l1 ++ f t :: l2 := by
  induction l1 with
  | nil => simp [updateFirst, hpt]
  | cons a l ih =>
    have ha : p a = false := h a (List.mem_cons_self a l)
    simp [updateFirst, ha, ih (fun x hx => h x (List.mem_cons_of_mem a hx))]

/-- C5: updating a task with a priority-only update sets exactly the priority,
leaves its other seven fields unchanged, strictly increases updated_at
(assuming the clock has advanced past the task's last update), persists, and
leaves every other task in the store untouched. -/
theorem C5_update_priority_frame (s : TMState) (now : Nat) (tid : String) (p : Int)
    (t : Task) (hfind : get_task_by_id s.tasks tid = some t)
    (hclock : t.updated_at < now) (hp1 : 1 ≤ p) (hp5 : p ≤ 5) :
    ∃ t2, (update_task s now tid ⟨none, none, none, some (some p), none, none⟩).1
        = .ok t2
      ∧ t2.id = t.id ∧ t2.title = t.title ∧ t2.description = t.description
      ∧ t2.status = t.status ∧ t2.estimate_hours = t.estimate_hours
      ∧ t2.due_date = t.due_date ∧ t2.created_at = t.created_at
      ∧ t2.priority = some p
      ∧ t.updated_at < t2.updated_at
      ∧ ∃ l1 l2, s.tasks = l1 ++ t :: l2 ∧ (∀ x ∈ l1, x.id ≠ tid)
          ∧ (update_task s now tid ⟨none, none, none, some (some p), none, none⟩).2.tasks
              = l1 ++ t2 :: l2
          ∧ (update_task s now tid ⟨none, none, none, some (some p), none, none⟩).2.file
              = l1 ++ t2 :: l2 := by
  obtain ⟨hpt, l1, l2, hsplit, hl1⟩ := List.find?_eq_some.mp hfind
  have hl1' : ∀ x ∈ l1, (fun x => decide (x.id = tid)) x = false := by
    intro x hx
    simpa using hl1 x hx
  have hupd := updateFirst_append l1 t l2 (fun x => decide (x.id = tid))
    (fun x => { applyUpdate x ⟨none, none, none, some (some p), none, none⟩ with
      updated_at := now }) hl1' hpt
  refine ⟨{ t with priority := some p, updated_at := now },
    by simp [update_task, hfind, applyUpdate], rfl, rfl, rfl, rfl, rfl, rfl, rfl, rfl,
    hclock, l1, l2, hsplit, ?_, ?_, ?_⟩
  · intro x hx
    simpa using hl1' x hx
  · simp only [update_task, hfind]
    rw [hsplit, hupd]
    simp [applyUpdate]
  · simp only [update_task, hfind]
    rw [hsplit, hupd]
    simp [applyUpdate]

/-- C5 witness: the theorem at a one-task store, priority 3 updated to 4. -/
theorem C5_update_priority_frame_witness :
    ∃ t2, (update_task ⟨[sampleTask], [sampleTask]⟩ 1 "a"
        ⟨none, none, none, some (some 4), none, none⟩).1 = .ok t2
      ∧ t2.priority = some 4 ∧ sampleTask.updated_at < t2.updated_at := by
  obtain ⟨t2, h1, _, _, _, _, _, _, _, hpr, hup, -⟩ :=
    C5_update_priority_frame ⟨[sampleTask], [sampleTask]⟩ 1 "a" 4 sampleTask
      (by decide) (by decide) (by decide) (by decide)
  exact ⟨t2, h1, hpr, hup⟩

/-- C6 counterexample: the store holding one valid task satisfies the
invariant, and the priority-only update carrying an explicitly-present None is
accepted by pydantic's TaskUpdate validation; applying it stores None into the
task's priority, so the resulting collection violates the declared field
constraints — the invariant is not preserved. -/
theorem C6_counterexample :
    taskInvariant sampleTask = true
    ∧ validUpdate ⟨none, none, none, some none, none, none⟩ = true
    ∧ ((update_task ⟨[sampleTask], [sampleTask]⟩ 1 "a"
          ⟨none, none, none, some none, none, none⟩).2.tasks.all taskInvariant)
        = false := by
  decide

theorem title_isEmpty_false {title : String} (h : 1 ≤ title.length) :
    title.isEmpty = false := by
  cases he : title.isEmpty
  · rfl
  · have he' : title = "" := (String.isEmpty_iff title).mp he
    subst he'
    simp at h

theorem taskInvariant_mk_of_validCreate (new_id : String) (title : String)
    (description : Option String) (priority : Int) (estimate_hours : Option Int)
    (due_date : Option String) (now : Nat)
    (hv : validCreate title description priority estimate_hours = true) :
    taskInvariant ⟨new_id, some title, description, some .pending, some priority,
      estimate_hours, due_date, now, now⟩ = true := by
  cases description <;> cases estimate_hours <;>
    simp_all [validCreate, taskInvariant, title_isEmpty_false]

theorem mem_updateFirst (p : Task → Bool) (f : Task → Task) (l : List Task)
    (t : Task) (h : t ∈ updateFirst p f l) : t ∈ l ∨ ∃ x ∈ l, t = f x := by
  induction l with
  | nil => simp [updateFirst] at h
  | cons a l ih =>
    by_cases hp : p a = true
    · simp [updateFirst, hp] at h
      rcases h with h | h
      · exact Or.inr ⟨a, List.mem_cons_self a l, h⟩
      · exact Or.inl (List.mem_cons_of_mem a h)
    · simp [updateFirst, Bool.of_not_eq_true hp] at h
      rcases h with h | h
      · exact Or.inl (h ▸ List.mem_cons_self a l)
      · rcases ih h with h' | ⟨x, hx, hfx⟩
        · exact Or.inl (List.mem_cons_of_mem a h')
        · exact Or.inr ⟨x, List.mem_cons_of_mem a hx, hfx⟩

theorem taskInvariant_applyUpdate (x : Task) (u : TaskUpdate) (now : Nat)
    (hx : taskInvariant x = true) (hvu : validUpdate u = true)
    (hti : u.title ≠ some none) (hpr : u.priority ≠ some none) :
    taskInvariant { applyUpdate x u with updated_at := now } = true := by
  rcases u with ⟨ut, ud, us, up, ue, udd⟩
  rcases ut with _ | ⟨_ | tstr⟩ <;> rcases up with _ | ⟨_ | pv⟩ <;>
    first
      | exact absurd rfl hti
      | exact absurd rfl hpr
      | (rcases ud with _ | dv <;> rcases us with _ | sv <;>
          rcases ue with _ | ⟨_ | ev⟩ <;> rcases udd with _ | ddv <;>
          simp_all [applyUpdate, taskInvariant, validUpdate])

/-- C6 amended: the declared field constraints hold for every task produced
by a successful create, are preserved by delete, and are preserved by every
update whose (pydantic-validated) TaskUpdate does not carry an
explicitly-present None for the constrained required fields title and
priority; an update carrying such an explicit None instead stores None into
the field, violating the constraint (see the counterexample). -/
theorem C6_invariant_preservation :
    (∀ s now new_id title description priority estimate_hours due_date task s2,
        (∀ t ∈ s.tasks, taskInvariant t = true) →
        create_task s now new_id title description priority estimate_hours due_date
          = .ok (task, s2) →
        ∀ t ∈ s2.tasks, taskInvariant t = true)
    ∧ (∀ s task_id, (∀ t ∈ s.tasks, taskInvariant t = true) →
        ∀ t ∈ (delete_task s task_id).2.tasks, taskInvariant t = true)
    ∧ (∀ s now task_id u, (∀ t ∈ s.tasks, taskInvariant t = true) →
        validUpdate u = true → u.title ≠ some none → u.priority ≠ some none →
        ∀ t ∈ (update_task s now task_id u).2.tasks, taskInvariant t = true) := by
  refine ⟨?_, ?_, ?_⟩
  · intro s now new_id title description priority estimate_hours due_date task s2
      hinv hok
    by_cases hv : validCreate title description priority estimate_hours = true
    · simp [create_task, hv] at hok
      intro t ht
      rw [← hok.2] at ht
      simp at ht
      rcases ht with ht | ht
      · exact hinv t ht
      · subst ht
        exact taskInvariant_mk_of_validCreate new_id title description priority
          estimate_hours due_date now hv
    · simp [create_task, hv] at hok
  · intro s task_id hinv t ht
    simp only [delete_task] at ht
    split at ht
    · exact hinv t (List.mem_of_mem_filter ht)
    · exact hinv t ht
  · intro s now task_id u hinv hvu hti hpr t ht
    cases hfind : get_task_by_id s.tasks task_id with
    | none =>
      simp [update_task, hfind] at ht
      exact hinv t ht
    | some t0 =>
      simp only [update_task, hfind] at ht
      rcases mem_updateFirst _ _ _ _ ht with h | ⟨x, hx, hfx⟩
      · exact hinv t h
      · subst hfx
        exact taskInvariant_applyUpdate x u now (hinv x hx) hvu hti hpr

/-- C6 witness: the delete branch of the amended theorem applied to a
one-task store with a non-matching id keeps the task valid. -/
theorem C6_invariant_preservation_witness : taskInvariant sampleTask = true :=
  C6_invariant_preservation.2.1 ⟨[sampleTask], [sampleTask]⟩ "zzz" (by decide)
    sampleTask (by decide)

/-- `delete_task` on a store with no matching id returns false and leaves the
state (memory and file) untouched. -/
theorem delete_task_absent (s : TMState) (tid : String)
    (h : ∀ t ∈ s.tasks, t.id ≠ tid) : delete_task s tid = (false, s) := by
  have hfe : s.tasks.filter (fun t => !decide (t.id = tid)) = s.tasks :=
    List.filter_eq_self.mpr (fun t ht => by simpa using h t ht)
  simp [delete_task, hfe]

/-- C7: `delete_task` never raises; when the id is absent it returns false
without touching the collection or the file; when the id is present it removes
exactly that task (count down by one), persists, returns true, and a second
delete with the same id then returns false and changes nothing further. -/
theorem C7_delete_task (s : TMState) (tid : String)
    (hnd : (s.tasks.map Task.id).Nodup) :
    ((∀ t ∈ s.tasks, t.id ≠ tid) → delete_task s tid = (false, s))
    ∧ (∀ t, t ∈ s.tasks → t.id = tid →
        (delete_task s tid).1 = true
        ∧ (∃ l1 l2, s.tasks = l1 ++ t :: l2 ∧ (∀ x ∈ l1, x.id ≠ tid)
            ∧ (∀ x ∈ l2, x.id ≠ tid)
            ∧ (delete_task s tid).2.tasks = l1 ++ l2)
        ∧ (delete_task s tid).2.tasks.length + 1 = s.tasks.length
        ∧ (delete_task s tid).2.file = (delete_task s tid).2.tasks
        ∧ delete_task (delete_task s tid).2 tid = (false, (delete_task s tid).2)) := by
  refine ⟨delete_task_absent s tid, ?_⟩
  intro t ht htid
  obtain ⟨l1, l2, hsplit⟩ := List.append_of_mem ht
  have hmap : (l1.map Task.id ++ t.id :: l2.map Task.id).Nodup := by
    have := hsplit ▸ hnd
    simpa using this
  have hmid := (List.nodup_cons.mp (List.nodup_middle.mp hmap)).1
  have hl1 : ∀ x ∈ l1, x.id ≠ tid := by
    intro x hx heq
    exact hmid (List.mem_append.mpr (Or.inl
      (List.mem_map.mpr ⟨x, hx, heq.trans htid.symm⟩)))
  have hl2 : ∀ x ∈ l2, x.id ≠ tid := by
    intro x hx heq
    exact hmid (List.mem_append.mpr (Or.inr
      (List.mem_map.mpr ⟨x, hx, heq.trans htid.symm⟩)))
  have hf1 : l1.filter (fun x => !decide (x.id = tid)) = l1 :=
    List.filter_eq_self.mpr (fun x hx => by simpa using hl1 x hx)
  have hf2 : l2.filter (fun x => !decide (x.id = tid)) = l2 :=
    List.filter_eq_self.mpr (fun x hx => by simpa using hl2 x hx)
  have htasks2 : s.tasks.filter (fun x => !decide (x.id = tid)) = l1 ++ l2 := by
    rw [hsplit, List.filter_append]
    simp only [List.filter_cons]
    simp [htid, hf1, hf2]
  have hlen : (s.tasks.filter (fun x => !decide (x.id = tid))).length
      < s.tasks.length := by
    rw [htasks2, hsplit]
    simp
  have hdel : delete_task s tid = (true, ⟨l1 ++ l2, l1 ++ l2⟩) := by
    simp [delete_task, hlen, htasks2]
    rw [hsplit]
    simp only [List.length_append, List.length_cons]
    omega
  refine ⟨by rw [hdel], ⟨l1, l2, hsplit, hl1, hl2, by rw [hdel]⟩, ?_, by rw [hdel], ?_⟩
  · rw [hdel, hsplit]
    simp only [List.length_append, List.length_cons]
    omega
  · rw [hdel]
    exact delete_task_absent ⟨l1 ++ l2, l1 ++ l2⟩ tid
      (fun x hx => (List.mem_append.mp hx).elim (hl1 x) (hl2 x))

/-- C7 witness: deleting the only task of a one-task store succeeds, empties
the store, and the repeated delete returns false. -/
theorem C7_delete_task_witness :
    (delete_task ⟨[sampleTask], [sampleTask]⟩ "a").1 = true
    ∧ (delete_task ⟨[sampleTask], [sampleTask]⟩ "a").2.tasks.length + 1 = 1
    ∧ delete_task (delete_task ⟨[sampleTask], [sampleTask]⟩ "a").2 "a"
        = (false, (delete_task ⟨[sampleTask], [sampleTask]⟩ "a").2) := by
  have h := (C7_delete_task ⟨[sampleTask], [sampleTask]⟩ "a" (by decide)).2
    sampleTask (by decide) (by decide)
  exact ⟨h.1, h.2.2.1, h.2.2.2.2⟩

/-- C8: `get_task_summary` reports the exact total and per-status counts, and
the completion rate is completed/total*100 rounded (half to even, Python's
round) to one decimal place, or 0 when the store is empty; the operation is
read-only by construction (it takes no state and returns none). -/
theorem C8_task_summary (tasks : List Task) :
    (get_task_summary tasks).total = tasks.length
    ∧ (get_task_summary tasks).pending
        = tasks.countP (fun t => decide (t.status = some .pending))
    ∧ (get_task_summary tasks).in_progress
        = tasks.countP (fun t => decide (t.status = some .in_progress))
    ∧ (get_task_summary tasks).completed
        = tasks.countP (fun t => decide (t.status = some .completed))
    ∧ (get_task_summary tasks).completion_rate
        = (if tasks.length = 0 then 0
           else pyRound1
             ((tasks.countP (fun t => decide (t.status = some .completed)) : ℚ)
               / (tasks.length : ℚ) * 100)) := by
  refine ⟨rfl, ?_, ?_, ?_, ?_⟩
  · simp [get_task_summary, List.countP_eq_length_filter]
  · simp [get_task_summary, List.countP_eq_length_filter]
  · simp [get_task_summary, List.countP_eq_length_filter]
  · by_cases h0 : tasks.length = 0
    · simp only [get_task_summary, h0, if_pos]
      norm_num [pyRound1, roundHalfEven]
    · have hpos : 0 < tasks.length := Nat.pos_of_ne_zero h0
      simp [get_task_summary, h0, hpos, List.countP_eq_length_filter]

theorem unscheduledPred_eq (slots : List TimeSlot) (t : Task) (hne : t.id ≠ "") :
    (!(slots.filterMap (fun sl =>
        if optStrTruthy sl.task_id then sl.task_id else none)).any
        (fun i => decide (i = t.id)))
      = decide (¬ ∃ sl ∈ slots, sl.task_id = some t.id) := by
  by_cases hsp : ∃ sl ∈ slots, sl.task_id = some t.id
  · obtain ⟨sl, hsl, hidq⟩ := hsp
    have htr : optStrTruthy (some t.id) = true := by
      simp [optStrTruthy, isEmpty_false_of_ne hne]
    have hmem : t.id ∈ slots.filterMap (fun sl =>
        if optStrTruthy sl.task_id then sl.task_id else none) :=
      List.mem_filterMap.mpr ⟨sl, hsl, by simp [hidq, htr]⟩
    have hany : (slots.filterMap (fun sl =>
        if optStrTruthy sl.task_id then sl.task_id else none)).any
        (fun i => decide (i = t.id)) = true :=
      List.any_eq_true.mpr ⟨t.id, hmem, by simp⟩
    have hex : ∃ sl ∈ slots, sl.task_id = some t.id := ⟨sl, hsl, hidq⟩
    simp [hany, hex]
  · have hany : (slots.filterMap (fun sl =>
        if optStrTruthy sl.task_id then sl.task_id else none)).any
        (fun i => decide (i = t.id)) = false := by
      rw [Bool.eq_false_iff]
      intro hb
      obtain ⟨i, hi, hieq⟩ := List.any_eq_true.mp hb
      obtain ⟨sl, hsl, hf⟩ := List.mem_filterMap.mp hi
      have hieq' : i = t.id := by simpa using hieq
      by_cases htr : optStrTruthy sl.task_id = true
      · rw [if_pos htr] at hf
        exact hsp ⟨sl, hsl, by rw [hf, hieq']⟩
      · rw [if_neg htr] at hf
        exact Option.noConfusion hf
    simp [hany, hsp]

/-- C10: `get_unscheduled_tasks` equals the unfiltered listing filtered to the
tasks whose id does not appear as a task_id among today's slots (no plan
meaning no scheduled ids), so it keeps the listing's order; that order is
priority descending with created_at-descending tie-breaks.  The hypotheses
record that no task carries the empty-string id (true of generated UUIDs,
and needed because Python truthiness would drop "" from the scheduled set)
and that all stored priorities are ints. -/
theorem C10_unscheduled_tasks (tasks : List Task) (s : DPState) (today : String)
    (hid : ∀ t ∈ tasks, t.id ≠ "")
    (hp : ∀ t ∈ tasks, t.priority.isSome) :
    get_unscheduled_tasks tasks s today
      = (get_tasks tasks none).filter
          (fun t => decide (¬ ∃ sl ∈ (match get_today_plan s today with
              | some plan => plan.time_slots
              | none => ([] : List TimeSlot)), sl.task_id = some t.id))
    ∧ (get_unscheduled_tasks tasks s today).Pairwise specSortedRel := by
  have hsub : ∀ t ∈ get_tasks tasks none, t.id ≠ "" :=
    fun t ht => hid t (mem_get_tasks t tasks none ht)
  have hsorted : (get_unscheduled_tasks tasks s today).Pairwise specSortedRel := by
    have hsubl : List.Sublist (get_unscheduled_tasks tasks s today)
        (get_tasks tasks none) := by
      simp only [get_unscheduled_tasks]
      exact List.filter_sublist _
    exact (get_tasks_pairwise tasks none).sublist hsubl
  cases hc : get_today_plan s today with
  | some plan =>
    refine ⟨?_, hsorted⟩
    simp only [get_unscheduled_tasks, hc]
    exact List.filter_congr
      (fun t ht => unscheduledPred_eq plan.time_slots t (hsub t ht))
  | none =>
    refine ⟨?_, hsorted⟩
    simp only [get_unscheduled_tasks, hc]
    exact List.filter_congr (fun t ht => unscheduledPred_eq [] t (hsub t ht))

/-- C10 witness: the theorem's filter characterisation at a one-task store
with no plan. -/
theorem C10_unscheduled_tasks_witness :
    get_unscheduled_tasks [sampleTask] ⟨[], []⟩ "2026-10-12"
      = (get_tasks [sampleTask] none).filter
          (fun t => decide (¬ ∃ sl ∈
              (match get_today_plan (⟨[], []⟩ : DPState) "2026-10-12" with
              | some plan => plan.time_slots
              | none => ([] : List TimeSlot)), sl.task_id = some t.id)) :=
  (C10_unscheduled_tasks [sampleTask] ⟨[], []⟩ "2026-10-12" (by decide)
    (by decide)).1

end DayPlannerAI
